import Mathlib

/-!
A shallow embedding of `snarkOS/storage/src/ledger.rs` (the ledger-state
store: height counter, commitment Merkle accumulator, primary/secondary
bootstrap and catch-up), together with proofs of the specification claims.

External collaborators (the key-value storage engine, the cryptographic
parameters, the genesis payload, and the few crate functions defined outside
this file) are modelled from the spec where noted; everything else is a direct
translation of the source. Machine integers are `Nat` (no arithmetic in this
file overflows a `u32` other than through the byte codecs, which are explicit).
-/

set_option maxHeartbeats 1000000

deriving instance DecidableEq for Except

namespace SnarkOSLedger

/-- Raw byte strings handled by the storage layer (`Vec<u8>` in the source). -/
abbrev Bytes := List Nat

/-- Modelled from the spec: the storage error type
(`snarkvm_dpc::errors::StorageError`, defined outside this crate); only the
failure kinds this file can produce are distinguished. -/
inductive StorageError where
  | message (s : String)
  | ioFault
  | decodeFault
  | merkleFault
deriving DecidableEq, Repr

/-- Modelled from the spec: the two storage columns this file touches
(`COL_META` and `COL_COMMITMENT`, numeric constants defined elsewhere in the
crate). -/
inductive Col where
  | meta
  | commitment
deriving DecidableEq, Repr

/-- Byte rendering of a string key constant (`str::as_bytes`). -/
def strBytes (s : String) : Bytes := s.data.map Char.toNat

/-- Modelled from the spec: the singleton meta key `KEY_BEST_BLOCK_NUMBER`
(defined elsewhere in the crate). -/
def KEY_BEST_BLOCK_NUMBER : Bytes := strBytes ("BEST_BLOCK_NUMBER")

/-- Modelled from the spec: the singleton meta key `KEY_PEER_BOOK` (defined
elsewhere in the crate). -/
def KEY_PEER_BOOK : Bytes := strBytes ("PEER_BOOK")

/-- Modelled from the spec: `bytes_to_u32` (defined elsewhere in the crate) —
fixed-width little-endian decoding of a 4-byte value. -/
def bytes_to_u32 (b : Bytes) : Nat :=
  (b.take 4).foldr (fun x acc => x + 256 * acc) 0

/-- Modelled from the spec: fixed-width little-endian encoding of a `u32`. -/
def u32_to_bytes (n : Nat) : Bytes :=
  [n % 256, n / 256 % 256, n / 65536 % 256, n / 16777216 % 256]

/-- A column-partitioned key-value store: the portion of the external storage
facade state that this file reads and writes. Each column is an ordered
association list, standing for storage whose `get_col` enumeration order is
unspecified by contract. -/
structure KVStore where
  meta : List (Bytes × Bytes)
  commitments : List (Bytes × Bytes)
deriving DecidableEq, Repr

def KVStore.empty : KVStore := { meta := [], commitments := [] }

/-- The entries of one column, in storage enumeration order
(`Storage::get_col`). -/
def KVStore.getColList (s : KVStore) : Col → List (Bytes × Bytes)
  | Col.meta => s.meta
  | Col.commitment => s.commitments

/-- First-match association lookup, the point-read semantics of one column. -/
def lookupA (l : List (Bytes × Bytes)) (k : Bytes) : Option Bytes :=
  (l.find? (fun kv => kv.1 == k)).map (fun kv => kv.2)

/-- Point lookup in a column (`Storage::get`). -/
def KVStore.get (s : KVStore) (col : Col) (k : Bytes) : Option Bytes :=
  lookupA (s.getColList col) k

/-- A write operation (`snarkvm_dpc::Op`); this file only constructs
`Insert`. -/
inductive Op where
  | insert (col : Col) (key : Bytes) (value : Bytes)
  | delete (col : Col) (key : Bytes)
deriving DecidableEq, Repr

/-- Insert-or-overwrite into an association list (single-key put). -/
def insertA (l : List (Bytes × Bytes)) (k v : Bytes) : List (Bytes × Bytes) :=
  (k, v) :: l.filter (fun kv => !(kv.1 == k))

def KVStore.applyOp (s : KVStore) : Op → KVStore
  | Op.insert Col.meta k v => { s with meta := insertA s.meta k v }
  | Op.insert Col.commitment k v => { s with commitments := insertA s.commitments k v }
  | Op.delete Col.meta k => { s with meta := s.meta.filter (fun kv => !(kv.1 == k)) }
  | Op.delete Col.commitment k => { s with commitments := s.commitments.filter (fun kv => !(kv.1 == k)) }

/-- Atomic batched write (`Storage::batch` applied to a
`DatabaseTransaction`). -/
def KVStore.batch (s : KVStore) (ops : List Op) : KVStore :=
  ops.foldl KVStore.applyOp s

/-- Modelled from the spec: the external data the ledger is generic over
(`C: Parameters` plus the embedded `GenesisBlock` payload). `cmLen` is the
fixed byte width of a record commitment, `depth` bounds the Merkle tree
capacity, `blockOk` is the block-deserialization success predicate, and
`genesisCms` are the commitments the installed genesis block contributes. -/
structure Params where
  cmLen : Nat
  depth : Nat
  genesisBytes : Bytes
  blockOk : Bytes → Bool
  genesisCms : List Bytes

/-- The accumulator snapshot: an immutable Merkle tree, abstracted (per the
spec only its usage contract is in scope) to its ordered leaf sequence. -/
structure MerkleTree where
  leaves : List Bytes
deriving DecidableEq, Repr

/-- Modelled from the spec: `MerkleTree::new` builds a tree from an ordered
leaf sequence and fails when the leaf set does not fit the parameters. -/
def MerkleTree.new (p : Params) (leaves : List Bytes) : Except StorageError MerkleTree :=
  if leaves.length ≤ 2 ^ p.depth then Except.ok { leaves := leaves }
  else Except.error StorageError.merkleFault

/-- Modelled from the spec: `FromBytes::read_le` for `C::RecordCommitment`
(a fixed-format leaf value): succeeds exactly on fixed-width well-formed
bytes. -/
def readCommitment (p : Params) (b : Bytes) : Except StorageError Bytes :=
  if b.length = p.cmLen then Except.ok b else Except.error StorageError.decodeFault

/-- The `Ledger` struct: in-memory height counter (the `AtomicU32`), the
atomically-swappable commitment Merkle tree (`ArcSwap<MerkleTree>`), and the
storage handle, modelled as its view of the key-value state. -/
structure Ledger where
  current_block_height : Nat
  cm_merkle_tree : MerkleTree
  storage : KVStore
deriving DecidableEq, Repr

/-- The environment of one bootstrap call: the on-disk contents at the path,
plus fault switches standing for I/O failures of the storage facade
(`S::open` and the read operations). -/
structure World where
  disk : KVStore
  openFails : Bool
  readFails : Bool
deriving DecidableEq, Repr

/-- `S::open(path, secondary_path)` : a handle onto the on-disk contents, or
an I/O error. -/
def storageOpen (w : World) : Except StorageError KVStore :=
  if w.openFails then Except.error StorageError.ioFault else Except.ok w.disk

/-- A fallible `Storage::get` through an open handle. -/
def storageGet (w : World) (s : KVStore) (col : Col) (k : Bytes) :
    Except StorageError (Option Bytes) :=
  if w.readFails then Except.error StorageError.ioFault else Except.ok (s.get col k)

/-- A fallible `Storage::get_col` through an open handle. -/
def storageGetCol (w : World) (s : KVStore) (col : Col) :
    Except StorageError (List (Bytes × Bytes)) :=
  if w.readFails then Except.error StorageError.ioFault else Except.ok (s.getColList col)

/-- The decode loop of the commitment index scanner: for each
`(commitment_key, index_value)` pair read from the commitment column, decode
the commitment (`FromBytes::read_le`, which may fail) and the index
(`bytes_to_u32`), preserving enumeration order. -/
def scanCommitments (p : Params) : List (Bytes × Bytes) → Except StorageError (List (Bytes × Nat))
  | [] => Except.ok []
  | kv :: rest =>
    match readCommitment p kv.1 with
    | Except.error e => Except.error e
    | Except.ok cm =>
      match scanCommitments p rest with
      | Except.error e => Except.error e
      | Except.ok tl => Except.ok ((cm, bytes_to_u32 kv.2) :: tl)

/-- The comparison used by
`cm_and_indices.sort_by(|&(_, i), &(_, j)| i.cmp(&j))`. -/
def idxLe (a b : Bytes × Nat) : Prop := a.2 ≤ b.2

instance : DecidableRel idxLe := fun a b => inferInstanceAs (Decidable (a.2 ≤ b.2))

instance : IsTotal (Bytes × Nat) idxLe := ⟨fun a b => Nat.le_total a.2 b.2⟩

instance : IsTrans (Bytes × Nat) idxLe := ⟨fun _ _ _ h h2 => Nat.le_trans h h2⟩

/-- The stable sort of the scanned pairs by stored index, ascending. -/
def sortByIndex (l : List (Bytes × Nat)) : List (Bytes × Nat) :=
  List.insertionSort idxLe l

/-- Commitment-column rows for a commitment sequence with dense indices
starting at `i`. -/
def indexPairs : Nat → List Bytes → List (Bytes × Bytes)
  | _, [] => []
  | i, c :: cs => (c, u32_to_bytes i) :: indexPairs (i + 1) cs

/-- Modelled from the spec: the storage contents right after a fresh primary
ledger is created at a path — genesis installed, height 0 under the
best-block-number meta key, the genesis commitments indexed densely from 0. -/
def genesisStore (p : Params) : KVStore :=
  { meta := [(KEY_BEST_BLOCK_NUMBER, u32_to_bytes 0)],
    commitments := indexPairs 0 p.genesisCms }

/-- Modelled from the spec: `LedgerScheme::new(Some(path), genesis_block)`
(defined outside this file) — creates a brand-new primary ledger at the path,
inserting the genesis block; per the spec this trusted bootstrap always
succeeds (the source `.expect`s it). -/
def ledgerNew (p : Params) (w : World) : Ledger × World :=
  ({ current_block_height := 0,
     cm_merkle_tree := { leaves := p.genesisCms },
     storage := genesisStore p },
   { w with disk := genesisStore p })

/-- Modelled from the spec: `LedgerScheme::new(None, genesis_block)` — an
ephemeral ledger built directly from the embedded genesis payload, with no
persistence. -/
def ledgerNewEphemeral (p : Params) : Ledger :=
  { current_block_height := 0,
    cm_merkle_tree := { leaves := p.genesisCms },
    storage := genesisStore p }

/-- The marker path for a secondary instance: the primary path with the fixed
suffix appended (`secondary_path_os_string.push("_secondary")`). -/
def secondaryPathOf (path : String) : String := path ++ "_secondary"

/-- One pass of `load_ledger_state(path, primary)`: open storage in the mode
matching the flag, look up the best-block-number meta key; when present,
reopen, scan the commitment column, decode, sort ascending by index, build
the Merkle tree and assemble the ledger; when absent, decode the genesis
payload and create a brand-new primary ledger at the path.
`Sum.inl` is a finished (ledger, resulting world); `Sum.inr` is the state
after a genesis install on a secondary request, where the source re-invokes
itself (`return Self::load_ledger_state(path, primary)`). -/
def load_step (p : Params) (w : World) (primary : Bool) :
    Except StorageError (Sum (Ledger × World) World) :=
  match (match storageOpen w with
         | Except.error e => Except.error e
         | Except.ok storage0 => storageGet w storage0 Col.meta KEY_BEST_BLOCK_NUMBER) with
  | Except.error e => Except.error e
  | Except.ok (some val) =>
    match storageOpen w with
    | Except.error e => Except.error e
    | Except.ok storage =>
      match storageGetCol w storage Col.commitment with
      | Except.error e => Except.error e
      | Except.ok cms =>
        match scanCommitments p cms with
        | Except.error e => Except.error e
        | Except.ok cm_and_indices =>
          match MerkleTree.new p ((sortByIndex cm_and_indices).map Prod.fst) with
          | Except.error e => Except.error e
          | Except.ok merkle_tree =>
            Except.ok (Sum.inl
              ({ current_block_height := bytes_to_u32 val,
                 cm_merkle_tree := merkle_tree,
                 storage := storage }, w))
  | Except.ok none =>
    if p.blockOk p.genesisBytes then
      let r := ledgerNew p w
      if primary then Except.ok (Sum.inl r) else Except.ok (Sum.inr r.2)
    else Except.error StorageError.decodeFault

/-- `load_ledger_state(path, primary)` : the bootstrap routine. The source's
self-re-invocation on the secondary-with-no-data branch is unrolled once; the
final fallback arm is unreachable (after a genesis install the meta key is
present, see `load_step_genesisStore_inl`). -/
def load_ledger_state (p : Params) (w : World) (primary : Bool) :
    Except StorageError (Ledger × World) :=
  match load_step p w primary with
  | Except.error e => Except.error e
  | Except.ok (Sum.inl r) => Except.ok r
  | Except.ok (Sum.inr w2) =>
    match load_step p w2 primary with
    | Except.error e => Except.error e
    | Except.ok (Sum.inl r) => Except.ok r
    | Except.ok (Sum.inr _) =>
      Except.error (StorageError.message ("unreachable: meta key present after genesis install"))

/-- `open_at_path` : ensure the path exists, then load as a primary. -/
def open_at_path (p : Params) (w : World) : Except StorageError (Ledger × World) :=
  load_ledger_state p w true

/-- `open_secondary_at_path` : ensure the path exists, then load as a
secondary (read-only) instance. -/
def open_secondary_at_path (p : Params) (w : World) : Except StorageError (Ledger × World) :=
  load_ledger_state p w false

/-- `new_empty(path)` : with a path, remove any existing contents
(`fs::remove_dir_all`, result ignored) and open primary there (installing
genesis); with no path, build an ephemeral ledger from the embedded genesis
payload. -/
def new_empty (p : Params) (w : World) (path : Option Unit) :
    Except StorageError (Ledger × World) :=
  match path with
  | some _ =>
    open_at_path p { w with disk := KVStore.empty }
  | none =>
    if p.blockOk p.genesisBytes then Except.ok (ledgerNewEphemeral p, w)
    else Except.error StorageError.decodeFault

/-- Modelled from the spec: `block_height` (defined elsewhere in the crate)
reads the in-memory atomic height counter. -/
def Ledger.block_height (L : Ledger) : Nat := L.current_block_height

/-- `get_best_block_number` : read the best-block-number key from the meta
column of storage directly (never the in-memory counter); absence of the key
is an error. -/
def Ledger.get_best_block_number (L : Ledger) : Except StorageError Nat :=
  match L.storage.get Col.meta KEY_BEST_BLOCK_NUMBER with
  | none => Except.error (StorageError.message ("Cannot obtain the best block number"))
  | some bytes => Except.ok (bytes_to_u32 bytes)

/-- `get_peer_book` : the stored serialized peers, an opaque single meta
slot. -/
def Ledger.get_peer_book (L : Ledger) : Except StorageError (Option Bytes) :=
  Except.ok (L.storage.get Col.meta KEY_PEER_BOOK)

/-- `save_peer_book_to_storage` : one atomic `Insert` of the serialized peers
under the fixed meta key. -/
def Ledger.save_peer_book_to_storage (L : Ledger) (peers_serialized : Bytes) :
    Except StorageError Ledger :=
  Except.ok { L with storage := L.storage.batch [Op.insert Col.meta KEY_PEER_BOOK peers_serialized] }

/-- Modelled from the spec: `rebuild_merkle_tree` (defined elsewhere in the
crate) — a full rescan-and-rebuild of the accumulator from the current
commitment column, atomically published; the "new commitments" delta
parameter is unused (a no-op input). -/
def Ledger.rebuild_merkle_tree (p : Params) (L : Ledger) (_delta : List (Bytes × Nat)) :
    Except StorageError Ledger :=
  match scanCommitments p (L.storage.getColList Col.commitment) with
  | Except.error e => Except.error e
  | Except.ok cm_and_indices =>
    match MerkleTree.new p ((sortByIndex cm_and_indices).map Prod.fst) with
    | Except.error e => Except.error e
    | Except.ok tree => Except.ok { L with cm_merkle_tree := tree }

/-- `catch_up_secondary(update_merkle_tree, primary_height)` : if the primary
is ahead, attempt the storage-level sync (`try_catch_up_with_primary`, whose
single combined success/failure outcome and synced contents are supplied by
the environment as `syncOk` / `primaryStore`); on success store the primary
height into the atomic counter and optionally rebuild the Merkle tree; a sync
failure is swallowed. -/
def Ledger.catch_up_secondary (p : Params) (L : Ledger) (syncOk : Bool)
    (primaryStore : KVStore) (update_merkle_tree : Bool) (primary_height : Nat) :
    Except StorageError Ledger :=
  let secondary_height := L.block_height
  if primary_height > secondary_height then
    if syncOk then
      let synced : Ledger :=
        { L with current_block_height := primary_height, storage := primaryStore }
      if update_merkle_tree then
        Ledger.rebuild_merkle_tree p synced []
      else
        Except.ok synced
    else
      Except.ok L
  else
    Except.ok L

/-! ## Sorting machinery for the commitment index scanner -/

theorem sortByIndex_perm (l : List (Bytes × Nat)) : (sortByIndex l).Perm l :=
  List.perm_insertionSort idxLe l

theorem sortByIndex_sorted (l : List (Bytes × Nat)) : List.Sorted idxLe (sortByIndex l) :=
  List.sorted_insertionSort idxLe l

theorem sorted_map_snd (s : List (Bytes × Nat)) (h : List.Sorted idxLe s) :
    List.Sorted (· ≤ ·) (s.map Prod.snd) := by
  rw [List.Sorted, List.pairwise_map]
  exact h

theorem sorted_snd_eq_range (s : List (Bytes × Nat)) (N : Nat)
    (hsorted : List.Sorted idxLe s)
    (hperm : (s.map Prod.snd).Perm (List.range N)) :
    s.map Prod.snd = List.range N :=
  List.eq_of_perm_of_sorted hperm (sorted_map_snd s hsorted) (List.sorted_le_range N)

theorem getElem_of_snd_range (s : List (Bytes × Nat)) (N : Nat)
    (hsnd : s.map Prod.snd = List.range N) (c : Bytes) (i : Nat)
    (hmem : (c, i) ∈ s) : s[i]? = some (c, i) := by
  obtain ⟨j, hj, hji⟩ := List.getElem_of_mem hmem
  have hlen : s.length = N := by
    have h0 := congrArg List.length hsnd
    simpa using h0
  have hjN : j < N := hlen ▸ hj
  have h2 : (s.map Prod.snd)[j]? = some i := by
    rw [List.getElem?_map, List.getElem?_eq_getElem hj, hji]
    rfl
  rw [hsnd] at h2
  have h4 : i = j := by
    simp [List.getElem?_range, hjN] at h2
    omega
  subst h4
  rw [List.getElem?_eq_getElem hj, hji]

/-- C1: for storage whose commitment column decodes to pairs holding each
index of `0..N-1` exactly once, reopening the ledger (meta key present)
yields an accumulator whose leaf `i` is the commitment stored with index `i`,
regardless of the order `get_col` enumerates the column. -/
theorem load_rebuilds_sorted_leaves
    (p : Params) (w : World) (primary : Bool) (val : Bytes)
    (pairs : List (Bytes × Nat)) (N : Nat)
    (hopen : w.openFails = false) (hread : w.readFails = false)
    (hmeta : lookupA w.disk.meta KEY_BEST_BLOCK_NUMBER = some val)
    (hscan : scanCommitments p w.disk.commitments = Except.ok pairs)
    (hidx : (pairs.map Prod.snd).Perm (List.range N))
    (hcap : N ≤ 2 ^ p.depth) :
    ∃ L : Ledger,
      load_ledger_state p w primary = Except.ok (L, w) ∧
      L.current_block_height = bytes_to_u32 val ∧
      L.cm_merkle_tree.leaves.length = N ∧
      ∀ c i, (c, i) ∈ pairs → L.cm_merkle_tree.leaves[i]? = some c := by
  have hlenpairs : pairs.length = N := by
    have h0 := hidx.length_eq
    simpa using h0
  have hsortlen : ((sortByIndex pairs).map Prod.fst).length = N := by
    simp [List.length_map, (sortByIndex_perm pairs).length_eq, hlenpairs]
  refine ⟨{ current_block_height := bytes_to_u32 val,
            cm_merkle_tree := { leaves := (sortByIndex pairs).map Prod.fst },
            storage := w.disk }, ?_, rfl, ?_, ?_⟩
  · simp [load_ledger_state, load_step, storageOpen, storageGet, storageGetCol,
          KVStore.get, KVStore.getColList, hopen, hread, hmeta, hscan,
          MerkleTree.new, hsortlen, hcap]
  · simpa using hsortlen
  · intro c i hmem
    have hmem2 : (c, i) ∈ sortByIndex pairs := (sortByIndex_perm pairs).mem_iff.2 hmem
    have hsnd : (sortByIndex pairs).map Prod.snd = List.range N :=
      sorted_snd_eq_range _ N (sortByIndex_sorted pairs)
        (((sortByIndex_perm pairs).map Prod.snd).trans hidx)
    have hpos := getElem_of_snd_range _ N hsnd c i hmem2
    simp only [MerkleTree.leaves]
    rw [List.getElem?_map, hpos]
    rfl

/-- Concrete parameters used by the closed witness instances. -/
def pW : Params :=
  { cmLen := 1, depth := 4, genesisBytes := [0],
    blockOk := fun _ => true, genesisCms := [[7]] }

/-- The concrete scenario of the spec: commitments A = `[10]`, B = `[11]`,
C = `[12]` stored with indices 2, 0, 1 (in that enumeration order). -/
def wC1 : World :=
  { disk := { meta := [(KEY_BEST_BLOCK_NUMBER, [5, 0, 0, 0])],
              commitments := [([10], [2, 0, 0, 0]), ([11], [0, 0, 0, 0]), ([12], [1, 0, 0, 0])] },
    openFails := false, readFails := false }

theorem load_rebuilds_sorted_leaves_witness :
    ∃ L : Ledger,
      load_ledger_state pW wC1 true = Except.ok (L, wC1) ∧
      L.current_block_height = bytes_to_u32 [5, 0, 0, 0] ∧
      L.cm_merkle_tree.leaves.length = 3 ∧
      ∀ c i, (c, i) ∈ [([10], 2), ([11], 0), ([12], 1)] →
        L.cm_merkle_tree.leaves[i]? = some c :=
  load_rebuilds_sorted_leaves pW wC1 true [5, 0, 0, 0]
    [([10], 2), ([11], 0), ([12], 1)] 3
    rfl rfl (by decide) (by decide) (by decide) (by decide)

/-! ## Replica catch-up controller -/

/-- C2: with the primary ahead and the storage sync succeeding,
`catch_up_secondary(true, h)` stores exactly `h` into the height counter and
republishes an accumulator rebuilt from a full rescan of the current storage
contents, the delta argument to the rebuild being the empty list. -/
theorem catch_up_updates_height_and_tree
    (p : Params) (L : Ledger) (primaryStore : KVStore) (h : Nat)
    (hgt : L.block_height < h) :
    Ledger.catch_up_secondary p L true primaryStore true h
      = Ledger.rebuild_merkle_tree p
          { L with current_block_height := h, storage := primaryStore } [] ∧
    ∀ L2, Ledger.catch_up_secondary p L true primaryStore true h = Except.ok L2 →
      L2.current_block_height = h ∧ L2.storage = primaryStore := by
  have hgt2 : L.current_block_height < h := hgt
  have heq : Ledger.catch_up_secondary p L true primaryStore true h
      = Ledger.rebuild_merkle_tree p
          { L with current_block_height := h, storage := primaryStore } [] := by
    simp [Ledger.catch_up_secondary, Ledger.block_height, hgt2]
  refine ⟨heq, ?_⟩
  intro L2 hok
  rw [heq] at hok
  unfold Ledger.rebuild_merkle_tree at hok
  dsimp only at hok
  cases hscan : scanCommitments p (KVStore.getColList primaryStore Col.commitment) with
  | error e => rw [hscan] at hok; simp at hok
  | ok cm_and_indices =>
    rw [hscan] at hok
    dsimp only at hok
    cases hnew : MerkleTree.new p ((sortByIndex cm_and_indices).map Prod.fst) with
    | error e => rw [hnew] at hok; simp at hok
    | ok tree =>
      rw [hnew] at hok
      simp only [Except.ok.injEq] at hok
      subst hok
      exact ⟨rfl, rfl⟩

/-- A concrete secondary ledger for the catch-up witnesses. -/
def LW : Ledger :=
  { current_block_height := 0,
    cm_merkle_tree := { leaves := [] },
    storage := KVStore.empty }

/-- A concrete primary-side store for the catch-up witnesses. -/
def psW : KVStore :=
  { meta := [(KEY_BEST_BLOCK_NUMBER, [2, 0, 0, 0])],
    commitments := [([10], [1, 0, 0, 0]), ([11], [0, 0, 0, 0])] }

theorem catch_up_updates_height_and_tree_witness :
    (Ledger.catch_up_secondary pW LW true psW true 2
      = Ledger.rebuild_merkle_tree pW
          { LW with current_block_height := 2, storage := psW } []) ∧
    ∀ L2, Ledger.catch_up_secondary pW LW true psW true 2 = Except.ok L2 →
      L2.current_block_height = 2 ∧ L2.storage = psW :=
  catch_up_updates_height_and_tree pW LW psW 2 (by decide)

/-- C3: with the primary not ahead, catch-up returns success and changes
neither the height nor the snapshot, for either flag value; repeated calls
with a non-increasing height sequence remain a no-op. -/
theorem catch_up_not_ahead_noop
    (p : Params) (L : Ledger) (syncOk : Bool) (primaryStore : KVStore)
    (u : Bool) (h : Nat) (hle : h ≤ L.block_height) :
    Ledger.catch_up_secondary p L syncOk primaryStore u h = Except.ok L ∧
    ∀ syncOk2 primaryStore2 u2 h2, h2 ≤ h →
      Ledger.catch_up_secondary p L syncOk2 primaryStore2 u2 h2 = Except.ok L := by
  have base : ∀ (so : Bool) (ps : KVStore) (uu : Bool) (hh : Nat),
      hh ≤ L.block_height →
      Ledger.catch_up_secondary p L so ps uu hh = Except.ok L := by
    intro so ps uu hh hhle
    have hle2 : hh ≤ L.current_block_height := hhle
    have hnot : ¬ (L.current_block_height < hh) := by omega
    simp [Ledger.catch_up_secondary, Ledger.block_height, hnot]
  exact ⟨base _ _ _ _ hle,
         fun so2 ps2 u2 h2 hh2 => base _ _ _ _ (le_trans hh2 hle)⟩

theorem catch_up_not_ahead_noop_witness :
    (Ledger.catch_up_secondary pW LW true psW true 0 = Except.ok LW) ∧
    ∀ syncOk2 primaryStore2 u2 h2, h2 ≤ 0 →
      Ledger.catch_up_secondary pW LW syncOk2 primaryStore2 u2 h2 = Except.ok LW :=
  catch_up_not_ahead_noop pW LW true psW true 0 (by decide)

/-- C4: with the primary ahead but the storage-level sync failing, catch-up
leaves the ledger (height and snapshot) unchanged and still returns success —
the sync failure is swallowed as a non-fatal stay-stale outcome. -/
theorem catch_up_sync_failure_swallowed
    (p : Params) (L : Ledger) (primaryStore : KVStore) (u : Bool) (h : Nat)
    (_hgt : L.block_height < h) :
    Ledger.catch_up_secondary p L false primaryStore u h = Except.ok L := by
  simp [Ledger.catch_up_secondary, Ledger.block_height]

theorem catch_up_sync_failure_swallowed_witness :
    Ledger.catch_up_secondary pW LW false psW true 5 = Except.ok LW :=
  catch_up_sync_failure_swallowed pW LW psW true 5 (by decide)

/-! ## Metadata accessors -/

/-- C7: `get_best_block_number` reads the best-block-number key from the meta
column of storage directly — never the in-memory height counter — returning
the decoded value when the key is present and an error when it is absent. -/
theorem get_best_block_number_reads_meta (L : Ledger) :
    (∀ b, L.storage.get Col.meta KEY_BEST_BLOCK_NUMBER = some b →
        L.get_best_block_number = Except.ok (bytes_to_u32 b)) ∧
    (L.storage.get Col.meta KEY_BEST_BLOCK_NUMBER = none →
        ∃ e, L.get_best_block_number = Except.error e) ∧
    (∀ n, Ledger.get_best_block_number
        { L with current_block_height := n } = L.get_best_block_number) := by
  refine ⟨?_, ?_, ?_⟩
  · intro b hb
    simp [Ledger.get_best_block_number, hb]
  · intro hb
    exact ⟨StorageError.message ("Cannot obtain the best block number"),
           by simp [Ledger.get_best_block_number, hb]⟩
  · intro n
    rfl

/-- A concrete ledger whose meta column holds a best-block-number entry. -/
def LmetaW : Ledger :=
  { current_block_height := 7,
    cm_merkle_tree := { leaves := [] },
    storage := { meta := [(KEY_BEST_BLOCK_NUMBER, [5, 0, 0, 0])], commitments := [] } }

theorem get_best_block_number_reads_meta_witness :
    LmetaW.get_best_block_number = Except.ok (bytes_to_u32 [5, 0, 0, 0]) ∧
    (∃ e, Ledger.get_best_block_number LW = Except.error e) ∧
    Ledger.get_best_block_number { LmetaW with current_block_height := 0 }
      = LmetaW.get_best_block_number :=
  ⟨(get_best_block_number_reads_meta LmetaW).1 [5, 0, 0, 0] (by decide),
   (get_best_block_number_reads_meta LW).2.1 (by decide),
   (get_best_block_number_reads_meta LmetaW).2.2 0⟩

theorem lookupA_insertA (l : List (Bytes × Bytes)) (k v : Bytes) :
    lookupA (insertA l k v) k = some v := by
  simp [lookupA, insertA]

/-- C8: saving the peer book and then reading it returns exactly the bytes
saved, byte for byte; the slot is a single fixed meta key with plain
overwrite semantics and no interpretation of its contents. -/
theorem peer_book_roundtrip (L : Ledger) (peers : Bytes) :
    ∃ L2, L.save_peer_book_to_storage peers = Except.ok L2 ∧
      L2.get_peer_book = Except.ok (some peers) ∧
      ∀ peers2, ∃ L3, L2.save_peer_book_to_storage peers2 = Except.ok L3 ∧
        L3.get_peer_book = Except.ok (some peers2) := by
  refine ⟨_, rfl, ?_, ?_⟩
  · simp [Ledger.get_peer_book, Ledger.save_peer_book_to_storage, KVStore.get,
          KVStore.batch, KVStore.applyOp, KVStore.getColList, lookupA_insertA]
  · intro peers2
    refine ⟨_, rfl, ?_⟩
    simp [Ledger.get_peer_book, Ledger.save_peer_book_to_storage, KVStore.get,
          KVStore.batch, KVStore.applyOp, KVStore.getColList, lookupA_insertA]

/-! ## Bootstrap: genesis install, failure surfacing, height agreement -/

theorem bytes_to_u32_u32_to_bytes (n : Nat) (h : n < 4294967296) :
    bytes_to_u32 (u32_to_bytes n) = n := by
  simp [bytes_to_u32, u32_to_bytes]
  omega

/-- The decoded form of a densely indexed commitment sequence starting at
`i` (proof-side specification helper). -/
def pairsFrom : Nat → List Bytes → List (Bytes × Nat)
  | _, [] => []
  | i, c :: cs => (c, i) :: pairsFrom (i + 1) cs

theorem scan_indexPairs (p : Params) :
    ∀ (cms : List Bytes) (i : Nat),
      (∀ c ∈ cms, c.length = p.cmLen) → i + cms.length ≤ 4294967296 →
      scanCommitments p (indexPairs i cms) = Except.ok (pairsFrom i cms) := by
  intro cms
  induction cms with
  | nil => intro i _ _; rfl
  | cons c cs ih =>
    intro i hcm hbound
    have hc : c.length = p.cmLen := hcm c (List.mem_cons_self c cs)
    have hdec : bytes_to_u32 (u32_to_bytes i) = i :=
      bytes_to_u32_u32_to_bytes i (by simp at hbound; omega)
    have hrest := ih (i + 1) (fun d hd => hcm d (List.mem_cons_of_mem c hd))
      (by simp at hbound ⊢; omega)
    simp [indexPairs, scanCommitments, readCommitment, hc, hrest, pairsFrom, hdec]

theorem pairsFrom_length : ∀ {cms : List Bytes} {i : Nat},
    (pairsFrom i cms).length = cms.length := by
  intro cms
  induction cms with
  | nil => intro i; rfl
  | cons c cs ih => intro i; simp [pairsFrom, ih]

theorem pairsFrom_snd_ge : ∀ (cms : List Bytes) (i : Nat) (x : Bytes × Nat),
    x ∈ pairsFrom i cms → i ≤ x.2 := by
  intro cms
  induction cms with
  | nil => intro i x hx; cases hx
  | cons c cs ih =>
    intro i x hx
    rcases List.mem_cons.1 hx with rfl | hx2
    · exact Nat.le_refl i
    · exact Nat.le_trans (Nat.le_succ i) (ih (i + 1) x hx2)

theorem pairsFrom_sorted : ∀ (cms : List Bytes) (i : Nat),
    List.Sorted idxLe (pairsFrom i cms) := by
  intro cms
  induction cms with
  | nil => intro i; exact List.sorted_nil
  | cons c cs ih =>
    intro i
    rw [pairsFrom, List.sorted_cons]
    exact ⟨fun x hx => Nat.le_trans (Nat.le_succ i) (pairsFrom_snd_ge cs (i + 1) x hx),
           ih (i + 1)⟩

theorem sortByIndex_pairsFrom (cms : List Bytes) (i : Nat) :
    sortByIndex (pairsFrom i cms) = pairsFrom i cms :=
  (pairsFrom_sorted cms i).insertionSort_eq

theorem pairsFrom_map_fst : ∀ (cms : List Bytes) (i : Nat),
    (pairsFrom i cms).map Prod.fst = cms := by
  intro cms
  induction cms with
  | nil => intro i; rfl
  | cons c cs ih => intro i; simp [pairsFrom, ih]

/-- C9: `new_empty(Some(path))` destroys any existing contents at the path and
then recreates storage and installs genesis there (the result is independent
of the previous disk contents); `new_empty(None)` builds an ephemeral ledger
directly from the embedded genesis payload, with no persistence (the world is
untouched). -/
theorem new_empty_destroys_or_ephemeral
    (p : Params) (w : World)
    (hopen : w.openFails = false) (hread : w.readFails = false)
    (hgen : p.blockOk p.genesisBytes = true) :
    new_empty p w (some ()) =
      Except.ok ({ current_block_height := 0,
                   cm_merkle_tree := { leaves := p.genesisCms },
                   storage := genesisStore p },
                 { w with disk := genesisStore p }) ∧
    new_empty p w none = Except.ok (ledgerNewEphemeral p, w) := by
  constructor
  · simp [new_empty, open_at_path, load_ledger_state, load_step, storageOpen,
          storageGet, KVStore.get, KVStore.getColList, KVStore.empty, lookupA,
          hopen, hread, hgen, ledgerNew]
  · simp [new_empty, hgen]

theorem new_empty_destroys_or_ephemeral_witness :
    new_empty pW wC1 (some ()) =
      Except.ok ({ current_block_height := 0,
                   cm_merkle_tree := { leaves := pW.genesisCms },
                   storage := genesisStore pW },
                 { wC1 with disk := genesisStore pW }) ∧
    new_empty pW wC1 none = Except.ok (ledgerNewEphemeral pW, wC1) :=
  new_empty_destroys_or_ephemeral pW wC1 rfl rfl rfl

/-- C10: immediately after `load_ledger_state` succeeds on storage whose
best-block-number meta key is present, the in-memory height counter equals
the decoded meta value, and `get_best_block_number` on the freshly opened
ledger returns exactly that counter. -/
theorem load_height_matches_meta
    (p : Params) (w : World) (primary : Bool) (val : Bytes) (L : Ledger) (w2 : World)
    (hmeta : lookupA w.disk.meta KEY_BEST_BLOCK_NUMBER = some val)
    (hload : load_ledger_state p w primary = Except.ok (L, w2)) :
    L.current_block_height = bytes_to_u32 val ∧
    L.get_best_block_number = Except.ok L.current_block_height := by
  cases ho : w.openFails with
  | true => simp [load_ledger_state, load_step, storageOpen, ho] at hload
  | false =>
  cases hr : w.readFails with
  | true =>
    simp [load_ledger_state, load_step, storageOpen, storageGet, ho, hr] at hload
  | false =>
  simp only [load_ledger_state, load_step, storageOpen, storageGet, storageGetCol,
             KVStore.get, KVStore.getColList, ho, hr, Bool.false_eq_true,
             if_false, hmeta] at hload
  cases hscan : scanCommitments p w.disk.commitments with
  | error e => rw [hscan] at hload; simp at hload
  | ok pairs =>
    rw [hscan] at hload
    dsimp only at hload
    cases hnew : MerkleTree.new p ((sortByIndex pairs).map Prod.fst) with
    | error e => rw [hnew] at hload; simp at hload
    | ok tree =>
      rw [hnew] at hload
      simp only [Except.ok.injEq, Prod.mk.injEq] at hload
      obtain ⟨hL, _⟩ := hload
      subst hL
      refine ⟨rfl, ?_⟩
      simp [Ledger.get_best_block_number, KVStore.get, KVStore.getColList, hmeta]

/-- The ledger produced by reopening the concrete scenario store `wC1`:
height 5, leaves in index order `[B, C, A]`. -/
def LC10 : Ledger :=
  { current_block_height := 5,
    cm_merkle_tree := { leaves := [[11], [12], [10]] },
    storage := wC1.disk }

theorem load_height_matches_meta_witness :
    LC10.current_block_height = bytes_to_u32 [5, 0, 0, 0] ∧
    LC10.get_best_block_number = Except.ok LC10.current_block_height :=
  load_height_matches_meta pW wC1 true [5, 0, 0, 0] LC10 wC1 (by decide) (by decide)

/-- C5: opening a secondary at a path where the best-block-number meta key is
absent first bootstraps a primary at that path (installing genesis) and then
returns a working secondary handle rather than an error; the create-then-
reopen step finishes after exactly one retry because after creation the meta
key is present. -/
theorem open_secondary_bootstraps_primary
    (p : Params) (w : World)
    (hopen : w.openFails = false) (hread : w.readFails = false)
    (hmeta : lookupA w.disk.meta KEY_BEST_BLOCK_NUMBER = none)
    (hgen : p.blockOk p.genesisBytes = true)
    (hcm : ∀ c ∈ p.genesisCms, c.length = p.cmLen)
    (hbound : p.genesisCms.length ≤ 4294967296)
    (hcap : p.genesisCms.length ≤ 2 ^ p.depth) :
    load_step p w false = Except.ok (Sum.inr { w with disk := genesisStore p }) ∧
    load_step p { w with disk := genesisStore p } false
      = Except.ok (Sum.inl
          ({ current_block_height := 0,
             cm_merkle_tree := { leaves := p.genesisCms },
             storage := genesisStore p },
           { w with disk := genesisStore p })) ∧
    open_secondary_at_path p w
      = Except.ok
          ({ current_block_height := 0,
             cm_merkle_tree := { leaves := p.genesisCms },
             storage := genesisStore p },
           { w with disk := genesisStore p }) := by
  have hzero : bytes_to_u32 (u32_to_bytes 0) = 0 := by decide
  have hmeta2 : lookupA (genesisStore p).meta KEY_BEST_BLOCK_NUMBER
      = some (u32_to_bytes 0) := by
    simp [genesisStore, lookupA]
  have step1 : load_step p w false
      = Except.ok (Sum.inr { w with disk := genesisStore p }) := by
    simp [load_step, storageOpen, storageGet, KVStore.get, KVStore.getColList,
          hopen, hread, hmeta, hgen, ledgerNew]
  have hscan2 : scanCommitments p (genesisStore p).commitments
      = Except.ok (pairsFrom 0 p.genesisCms) := by
    have h0 := scan_indexPairs p p.genesisCms 0 hcm (by omega)
    simpa [genesisStore] using h0
  have hplen : (sortByIndex (pairsFrom 0 p.genesisCms)).length ≤ 2 ^ p.depth := by
    rw [sortByIndex_pairsFrom, pairsFrom_length]
    exact hcap
  have step2 : load_step p { w with disk := genesisStore p } false
      = Except.ok (Sum.inl
          ({ current_block_height := 0,
             cm_merkle_tree := { leaves := p.genesisCms },
             storage := genesisStore p },
           { w with disk := genesisStore p })) := by
    simp [load_step, storageOpen, storageGet, storageGetCol, KVStore.get,
          KVStore.getColList, hopen, hread, hmeta2, hscan2, hplen,
          sortByIndex_pairsFrom, pairsFrom_map_fst, MerkleTree.new, hcap, hzero]
  have step3 : open_secondary_at_path p w
      = Except.ok
          ({ current_block_height := 0,
             cm_merkle_tree := { leaves := p.genesisCms },
             storage := genesisStore p },
           { w with disk := genesisStore p }) := by
    simp only [open_secondary_at_path, load_ledger_state, step1, step2]
  exact ⟨step1, step2, step3⟩

/-- A path with no existing chain data: empty disk, no I/O faults. -/
def wC5 : World := { disk := KVStore.empty, openFails := false, readFails := false }

theorem open_secondary_bootstraps_primary_witness :
    load_step pW wC5 false = Except.ok (Sum.inr { wC5 with disk := genesisStore pW }) ∧
    load_step pW { wC5 with disk := genesisStore pW } false
      = Except.ok (Sum.inl
          ({ current_block_height := 0,
             cm_merkle_tree := { leaves := pW.genesisCms },
             storage := genesisStore pW },
           { wC5 with disk := genesisStore pW })) ∧
    open_secondary_at_path pW wC5
      = Except.ok
          ({ current_block_height := 0,
             cm_merkle_tree := { leaves := pW.genesisCms },
             storage := genesisStore pW },
           { wC5 with disk := genesisStore pW }) :=
  open_secondary_bootstraps_primary pW wC5 rfl rfl (by decide) rfl
    (by decide) (by decide) (by decide)

theorem scanCommitments_error_of_bad (p : Params) (l : List (Bytes × Bytes))
    (hbad : ∃ kv ∈ l, kv.1.length ≠ p.cmLen) :
    scanCommitments p l = Except.error StorageError.decodeFault := by
  induction l with
  | nil => rcases hbad with ⟨kv, hm, _⟩; cases hm
  | cons hd tl ih =>
    rcases hbad with ⟨kv, hm, hlen⟩
    rcases List.mem_cons.1 hm with rfl | hm2
    · simp [scanCommitments, readCommitment, hlen]
    · by_cases hhd : hd.1.length = p.cmLen
      · simp [scanCommitments, readCommitment, hhd, ih ⟨kv, hm2, hlen⟩]
      · simp [scanCommitments, readCommitment, hhd]

/-- C6: in bootstrap, absence of the best-block-number meta key is the only
condition treated as "no existing chain"; every other failure — storage open
failure, read failure, commitment decode failure, tree-construction failure,
genesis decode failure — surfaces to the caller as a storage error, and with
the meta key present no default/empty state is ever substituted: the world is
left unchanged and the returned handle views the existing disk. -/
theorem load_failures_surface (p : Params) (w : World) (primary : Bool) :
    ((w.openFails = true ∨ w.readFails = true
        ∨ (∃ val, lookupA w.disk.meta KEY_BEST_BLOCK_NUMBER = some val ∧
            ((∃ kv ∈ w.disk.commitments, kv.1.length ≠ p.cmLen)
              ∨ (∃ pairs, scanCommitments p w.disk.commitments = Except.ok pairs ∧
                   2 ^ p.depth < pairs.length)))
        ∨ (lookupA w.disk.meta KEY_BEST_BLOCK_NUMBER = none ∧
             p.blockOk p.genesisBytes = false)) →
      ∃ e, load_ledger_state p w primary = Except.error e) ∧
    (w.openFails = false → w.readFails = false →
      ∀ val, lookupA w.disk.meta KEY_BEST_BLOCK_NUMBER = some val →
      ∀ r, load_ledger_state p w primary = Except.ok r →
        r.2 = w ∧ r.1.storage = w.disk ∧
        r.1.current_block_height = bytes_to_u32 val) := by
  constructor
  · intro hfault
    cases ho : w.openFails with
    | true =>
      exact ⟨StorageError.ioFault,
        by simp [load_ledger_state, load_step, storageOpen, ho]⟩
    | false =>
    cases hr : w.readFails with
    | true =>
      exact ⟨StorageError.ioFault,
        by simp [load_ledger_state, load_step, storageOpen, storageGet, ho, hr]⟩
    | false =>
    rcases hfault with h | h | ⟨val, hval, hbad⟩ | ⟨hnone, hgenbad⟩
    · rw [ho] at h; cases h
    · rw [hr] at h; cases h
    · rcases hbad with hdecode | ⟨pairs, hscanok, hbig⟩
      · have hscan := scanCommitments_error_of_bad p _ hdecode
        exact ⟨StorageError.decodeFault,
          by simp [load_ledger_state, load_step, storageOpen, storageGet,
                   storageGetCol, KVStore.get, KVStore.getColList, ho, hr,
                   hval, hscan]⟩
      · have hlen : ¬ ((sortByIndex pairs).length ≤ 2 ^ p.depth) := by
          have hpl := (sortByIndex_perm pairs).length_eq
          omega
        exact ⟨StorageError.merkleFault,
          by simp [load_ledger_state, load_step, storageOpen, storageGet,
                   storageGetCol, KVStore.get, KVStore.getColList, ho, hr,
                   hval, hscanok, MerkleTree.new, hlen]⟩
    · exact ⟨StorageError.decodeFault,
        by simp [load_ledger_state, load_step, storageOpen, storageGet,
                 KVStore.get, KVStore.getColList, ho, hr, hnone, hgenbad]⟩
  · intro ho hr val hval r hok
    obtain ⟨L, w2⟩ := r
    simp only [load_ledger_state, load_step, storageOpen, storageGet, storageGetCol,
               KVStore.get, KVStore.getColList, ho, hr, Bool.false_eq_true,
               if_false, hval] at hok
    cases hscan : scanCommitments p w.disk.commitments with
    | error e => rw [hscan] at hok; simp at hok
    | ok pairs =>
      rw [hscan] at hok
      dsimp only at hok
      cases hnew : MerkleTree.new p ((sortByIndex pairs).map Prod.fst) with
      | error e => rw [hnew] at hok; simp at hok
      | ok tree =>
        rw [hnew] at hok
        simp only [Except.ok.injEq, Prod.mk.injEq] at hok
        obtain ⟨hL, hw⟩ := hok
        subst hL
        subst hw
        exact ⟨rfl, rfl, rfl⟩

/-- A world whose storage engine fails to open. -/
def wFault : World := { disk := KVStore.empty, openFails := true, readFails := false }

theorem load_failures_surface_witness :
    (∃ e, load_ledger_state pW wFault true = Except.error e) ∧
    ((LC10, wC1).2 = wC1 ∧ (LC10, wC1).1.storage = wC1.disk ∧
      (LC10, wC1).1.current_block_height = bytes_to_u32 [5, 0, 0, 0]) :=
  ⟨(load_failures_surface pW wFault true).1 (Or.inl rfl),
   (load_failures_surface pW wC1 true).2 rfl rfl [5, 0, 0, 0] (by decide)
     (LC10, wC1) (by decide)⟩

end SnarkOSLedger
